import Mathlib

/-!
Shallow embedding of the `idempotency` Go package (an HTTP middleware for
the Idempotency-Key header) and proofs about it.

The embedding follows the source files `storage.go` and `idempotency.go`:
pure data is translated to Lean structures, the mutable map of the in-memory
store becomes an association list threaded through every operation, Go's
`error` return value becomes `Option String` (`none` = nil error), and each
storage method — which in the Go code holds the store's mutex (memory) or is
a single Redis command (distributed) for its whole duration — becomes one
atomic state-transformation step.  Concurrency between requests is modelled
by an explicit interleaving of these atomic steps.
-/

/-- `RequestStatus` from `idempotency.go`: the per-key record; `InProcess`
distinguishes an in-flight request (`true`) from a completed one (`false`). -/
structure RequestStatus where
  InProcess : Bool
deriving DecidableEq

/-- The in-process record `{InProcess: true}`. -/
def inProcessStatus : RequestStatus := ⟨true⟩

/-- The completed record `{InProcess: false}`. -/
def completedStatus : RequestStatus := ⟨false⟩

/-- Association-list lookup, modelling Go map indexing `m[k]`
(absent keys give the zero value, here `none`). -/
def lookupKey {α : Type} : List (String × α) → String → Option α
  | [], _ => none
  | (k', v) :: rest, k => if k' = k then some v else lookupKey rest k

/-- Association-list update, modelling Go map assignment `m[k] = v`. -/
def insertKey {α : Type} : List (String × α) → String → α → List (String × α)
  | [], k, v => [(k, v)]
  | (k', v') :: rest, k, v =>
      if k' = k then (k, v) :: rest else (k', v') :: insertKey rest k v

theorem lookupKey_insertKey_self {α : Type} (s : List (String × α)) (k : String) (v : α) :
    lookupKey (insertKey s k v) k = some v := by
  induction s with
  | nil => simp [insertKey, lookupKey]
  | cons hd tl ih =>
      obtain ⟨k', v'⟩ := hd
      by_cases h : k' = k
      · simp [insertKey, lookupKey, h]
      · simp [insertKey, lookupKey, h, ih]

/-- The state of the in-memory store: the `map[string]*RequestStatus` guarded
by the store's mutex. -/
abbrev MemStore := List (String × RequestStatus)

/-- `memoryStorage.Add` from `storage.go`: under the exclusive lock it sets
`m.storage[key] = &RequestStatus{InProcess: true}` and returns nil. -/
def memAdd (s : MemStore) (key : String) : Option String × MemStore :=
  (none, insertKey s key inProcessStatus)

/-- `memoryStorage.Get` from `storage.go`: under the read lock it returns
`m.storage[key]` (possibly nil) and a nil error. -/
def memGet (s : MemStore) (key : String) : (Option RequestStatus × Option String) × MemStore :=
  ((lookupKey s key, none), s)

/-- `memoryStorage.Complete` from `storage.go`: under the exclusive lock it
sets `m.storage[key] = &RequestStatus{InProcess: false}` and returns nil. -/
def memComplete (s : MemStore) (key : String) : Option String × MemStore :=
  (none, insertKey s key completedStatus)

/-- The `Storage` interface from `storage.go`, over a backend state `σ`.
`Get` returns the Go pair `(*RequestStatus, error)`. -/
structure Storage (σ : Type) where
  Add : σ → String → Option String × σ
  Get : σ → String → (Option RequestStatus × Option String) × σ
  Complete : σ → String → Option String × σ

/-- The in-memory `Storage` implementation (`memoryStorage`). -/
def memoryStorage : Storage MemStore :=
  ⟨memAdd, memGet, memComplete⟩

/-- The observable outcome of one request through the `Verify` middleware:
which response was written and, for the pass-through path, whether the
completion step reported an error (which the Go code sends as a 500 after
the handler's response). -/
inductive HttpOutcome
  | badRequest (msg : String)
  | internalError (msg : String)
  | conflict (msg : String)
  | handled (completionErr : Option String)
  | restored
deriving DecidableEq

/-- True exactly on the 500 Internal Server Error outcome. -/
def HttpOutcome.isInternal : HttpOutcome → Bool
  | .internalError _ => true
  | _ => false

/-- True when the coordinator reported any storage error for the request:
a 500 on query or claim failure, or the completion-failure report. -/
def errorReported : HttpOutcome → Bool
  | .internalError _ => true
  | .handled (some _) => true
  | _ => false

/-- Result of running `Verify` on one request: the response outcome, the
final store state, and whether the wrapped handler / the restorer ran. -/
structure VerifyResult (σ : Type) where
  outcome : HttpOutcome
  store : σ
  handlerRan : Bool
  restorerRan : Bool
deriving DecidableEq

/-- Error text built by `Verify` when the store query fails. -/
def getFailMsg (e : String) : String :=
  "could not process request to get Idempotency-Key: " ++ e

/-- Error text built by `Verify` when saving the key fails. -/
def addFailMsg (e : String) : String :=
  "could not process request to save Idempotency-Key: " ++ e

/-- Continuation of `Verify` after `storage.Add` returned: an error is a 500;
otherwise the wrapped handler runs and the request is completed. -/
def verifyAfterAdd {σ : Type} (st : Storage σ) (key : String) :
    Option String × σ → VerifyResult σ
  | (some e, s2) => ⟨.internalError (addFailMsg e), s2, false, false⟩
  | (none, s2) =>
      match st.Complete s2 key with
      | (cerr, s3) => ⟨.handled cerr, s3, true, false⟩

/-- Continuation of `Verify` after `storage.Get` returned: a non-nil error is
a 500; an absent key leads to `Add`; `InProcess` is a 409; otherwise the
restorer is invoked. -/
def verifyAfterGet {σ : Type} (st : Storage σ) (key : String) :
    (Option RequestStatus × Option String) × σ → VerifyResult σ
  | ((_, some e), s1) => ⟨.internalError (getFailMsg e), s1, false, false⟩
  | ((none, none), s1) => verifyAfterAdd st key (st.Add s1 key)
  | ((some rs, none), s1) =>
      if rs.InProcess then ⟨.conflict "request already in progress", s1, false, false⟩
      else ⟨.restored, s1, false, true⟩

/-- `state.Verify` from `idempotency.go`, for a single request carrying
`idempotencyKey` (the empty string models an absent `Idempotency-Key`
header, as returned by `r.Header.Get`). -/
def Verify {σ : Type} (st : Storage σ) (idempotencyKey : String) (s : σ) : VerifyResult σ :=
  if idempotencyKey = "" then
    ⟨.badRequest "no Idempotency-Key set", s, false, false⟩
  else
    verifyAfterGet st idempotencyKey (st.Get s idempotencyKey)

theorem verify_mem_absent (k : String) (s : MemStore) (hk : ¬k = "")
    (h : lookupKey s k = none) :
    Verify memoryStorage k s =
      ⟨.handled none, insertKey (insertKey s k inProcessStatus) k completedStatus,
        true, false⟩ := by
  simp [Verify, hk, memoryStorage, memGet, memAdd, memComplete,
    verifyAfterGet, verifyAfterAdd, h]

theorem verify_mem_inProcess (k : String) (s : MemStore) (hk : ¬k = "")
    (h : lookupKey s k = some inProcessStatus) :
    Verify memoryStorage k s =
      ⟨.conflict "request already in progress", s, false, false⟩ := by
  simp [Verify, hk, memoryStorage, memGet, verifyAfterGet, h, inProcessStatus]

theorem verify_mem_completed (k : String) (s : MemStore) (hk : ¬k = "")
    (h : lookupKey s k = some completedStatus) :
    Verify memoryStorage k s = ⟨.restored, s, false, true⟩ := by
  simp [Verify, hk, memoryStorage, memGet, verifyAfterGet, h, completedStatus]

/-- One stored Redis value: the token string and its remaining time to live
(`none` means no expiry is set on the key). -/
structure RedisEntry where
  value : String
  ttl : Option Nat
deriving DecidableEq

/-- The shared Redis keyspace. -/
abbrev RedisDB := List (String × RedisEntry)

/-- Connectivity of the Redis client for each command kind used by the
store: `none` means the command reaches Redis, `some e` means the client
returns the network error `e`. -/
structure RedisConn where
  setnxErr : Option String
  getErr : Option String
  setErr : Option String
deriving DecidableEq

/-- A fully healthy connection. -/
def healthyConn : RedisConn := ⟨none, none, none⟩

/-- Redis `SETNX key value EX expiry`: set only if the key is absent,
reporting whether the set happened. -/
def redisSetNX (db : RedisDB) (k v : String) (expiry : Nat) : Bool × RedisDB :=
  match lookupKey db k with
  | some _ => (false, db)
  | none => (true, insertKey db k ⟨v, some expiry⟩)

/-- Redis `GET key`: `none` models the `redis.Nil` reply. -/
def redisGetCmd (db : RedisDB) (k : String) : Option String :=
  (lookupKey db k).map RedisEntry.value

/-- Redis `SET key value KEEPTTL`: overwrite the value, keeping the existing
time to live (a key created this way carries no expiry). -/
def redisSetKeepTTL (db : RedisDB) (k v : String) : RedisDB :=
  match lookupKey db k with
  | some e => insertKey db k ⟨v, e.ttl⟩
  | none => insertKey db k ⟨v, none⟩

/-- Configuration of `redisStorage` from `storage.go`: the expiry passed to
`SetNX` and the namespace string prepended to every key (the Go field
`keyPrefix`, default `"idemp:"`). -/
structure RedisCfg where
  expiry : Nat
  keyPfx : String
deriving DecidableEq

/-- `redisStorage.Add` from `storage.go`: `SetNX(prefix+key, "in-process",
expiry)`; a client error is wrapped and returned; a `false` reply (the key
already exists) is returned as the generic error
`the key %q already exists in redis`; otherwise nil. -/
def rsAdd (cfg : RedisCfg) (conn : RedisConn) (db : RedisDB) (key : String) :
    Option String × RedisDB :=
  match conn.setnxErr with
  | some e => (some ("failed to set the key \"" ++ key ++ "\" in redis: " ++ e), db)
  | none =>
      match redisSetNX db (cfg.keyPfx ++ key) "in-process" cfg.expiry with
      | (false, db') => (some ("the key \"" ++ key ++ "\" already exists in redis"), db')
      | (true, db') => (none, db')

/-- `redisStorage.Get` from `storage.go`: `GET prefix+key`; `redis.Nil`
becomes `(nil, nil)`; any other client error is wrapped; otherwise the
status is in process exactly when the stored token is `"in-process"`. -/
def rsGet (cfg : RedisCfg) (conn : RedisConn) (db : RedisDB) (key : String) :
    (Option RequestStatus × Option String) × RedisDB :=
  match conn.getErr with
  | some e => ((none, some ("failed to get the key \"" ++ key ++ "\" from redis: " ++ e)), db)
  | none =>
      match redisGetCmd db (cfg.keyPfx ++ key) with
      | none => ((none, none), db)
      | some v => ((some ⟨v == "in-process"⟩, none), db)

/-- `redisStorage.Complete` from `storage.go`: `SET prefix+key "done"
KEEPTTL`; a client error is wrapped; otherwise nil. -/
def rsComplete (cfg : RedisCfg) (conn : RedisConn) (db : RedisDB) (key : String) :
    Option String × RedisDB :=
  match conn.setErr with
  | some e => (some ("failed to update the key \"" ++ key ++ "\" in redis: " ++ e), db)
  | none => (none, redisSetKeepTTL db (cfg.keyPfx ++ key) "done")

/-- The distributed `Storage` implementation (`redisStorage`) under a fixed
connectivity behaviour. -/
def redisStorage (cfg : RedisCfg) (conn : RedisConn) : Storage RedisDB :=
  ⟨rsAdd cfg conn, rsGet cfg conn, rsComplete cfg conn⟩

/-- Program counter of one request thread executing the body of `Verify`.
Each transition out of a non-final counter performs exactly the work done
while the Go code holds the store's lock once (or issues one Redis command),
so interleavings of two threads at this granularity are exactly the
interleavings the mutex admits. -/
inductive TPC
  | start
  | afterGet (status : Option RequestStatus)
  | afterAdd
  | afterRun
  | done (o : HttpOutcome)
deriving DecidableEq

/-- True when the thread has finished with a 500 Internal Server Error. -/
def TPC.doneInternal : TPC → Bool
  | .done o => o.isInternal
  | _ => false

/-- One atomic step of a request thread running `Verify`'s body against the
shared store; returns the new store, the new program counter, and whether
the wrapped handler ran during this step. -/
def stepThread {σ : Type} (st : Storage σ) (key : String) (s : σ) :
    TPC → σ × TPC × Bool
  | .start =>
      if key = "" then (s, .done (.badRequest "no Idempotency-Key set"), false)
      else
        match st.Get s key with
        | ((_, some e), s1) => (s1, .done (.internalError (getFailMsg e)), false)
        | ((status, none), s1) => (s1, .afterGet status, false)
  | .afterGet none =>
      match st.Add s key with
      | (some e, s2) => (s2, .done (.internalError (addFailMsg e)), false)
      | (none, s2) => (s2, .afterAdd, false)
  | .afterGet (some rs) =>
      if rs.InProcess then
        (s, .done (.conflict "request already in progress"), false)
      else (s, .done .restored, false)
  | .afterAdd => (s, .afterRun, true)
  | .afterRun =>
      match st.Complete s key with
      | (cerr, s3) => (s3, .done (.handled cerr), false)
  | .done o => (s, .done o, false)

/-- The joint state of two concurrent requests `a` and `b` bearing the same
idempotency key, with the shared store and the number of wrapped-handler
executions so far. -/
structure TwoThreads (σ : Type) where
  store : σ
  a : TPC
  b : TPC
  handlerRuns : Nat
deriving DecidableEq

/-- Advance one of the two threads (`true` = thread `a`). -/
def stepSched {σ : Type} (st : Storage σ) (key : String)
    (t : TwoThreads σ) (choice : Bool) : TwoThreads σ :=
  if choice then
    match stepThread st key t.store t.a with
    | (s', pc', ran) => ⟨s', pc', t.b, t.handlerRuns + (if ran then 1 else 0)⟩
  else
    match stepThread st key t.store t.b with
    | (s', pc', ran) => ⟨s', t.a, pc', t.handlerRuns + (if ran then 1 else 0)⟩

/-- Run a schedule (a list of thread choices) from an initial store, both
threads at their start. -/
def runSched {σ : Type} (st : Storage σ) (key : String) (init : σ)
    (sched : List Bool) : TwoThreads σ :=
  sched.foldl (stepSched st key) ⟨init, .start, .start, 0⟩

/-- The status of `key` in the in-memory store observed after each step of a
schedule of two concurrent requests. -/
def memTrace (key : String) (t : TwoThreads MemStore) : List Bool → List (Option RequestStatus)
  | [] => []
  | c :: rest =>
      let t' := stepSched memoryStorage key t c
      lookupKey t'.store key :: memTrace key t' rest

/-- `memTrace` from the initial joint state. -/
def memTraceFrom (key : String) (init : MemStore) (sched : List Bool) :
    List (Option RequestStatus) :=
  memTrace key ⟨init, .start, .start, 0⟩ sched

/-- Strictly sequential requests: run `Verify` `n` times with the same key,
returning the final store, the number of wrapped-handler executions and the
number of restorer invocations. -/
def runN {σ : Type} (st : Storage σ) (key : String) : Nat → σ → σ × Nat × Nat
  | 0, s => (s, 0, 0)
  | Nat.succ n, s =>
      let r := Verify st key s
      let rest := runN st key n r.store
      (rest.1, (if r.handlerRan then 1 else 0) + rest.2.1,
        (if r.restorerRan then 1 else 0) + rest.2.2)

/-- Wrap a storage so that every operation appends its name to a log,
making "which store operations ran" observable. -/
def loggedStorage {σ : Type} (st : Storage σ) : Storage (σ × List String) where
  Add := fun p k =>
    match st.Add p.1 k with
    | (e, s') => (e, (s', p.2 ++ ["Add"]))
  Get := fun p k =>
    match st.Get p.1 k with
    | (r, s') => (r, (s', p.2 ++ ["Get"]))
  Complete := fun p k =>
    match st.Complete p.1 k with
    | (e, s') => (e, (s', p.2 ++ ["Complete"]))

/-- Rank of a key's status along the intended lifecycle:
absent (0) → in process (1) → completed (2). -/
def statusRank : Option RequestStatus → Nat
  | none => 0
  | some ⟨true⟩ => 1
  | some ⟨false⟩ => 2

/-- `incompleteStorage` from `idempotency_test.go`: the memory storage with a
`Complete` override that returns nil without transitioning the key, so every
seen key stays `InProcess`. -/
def noopCompleteStorage : Storage MemStore :=
  ⟨memAdd, memGet, fun s _ => (none, s)⟩

/-- C7: a request whose Idempotency-Key header is empty or missing gets a
400 Bad Request with an error body, for every storage backend and state; the
store is untouched, no storage operation is logged, the handler and the
restorer do not run. -/
theorem empty_key_bad_request (σ : Type) (st : Storage σ) (s : σ) :
    Verify st "" s = ⟨.badRequest "no Idempotency-Key set", s, false, false⟩ ∧
    ((Verify (loggedStorage st) "" (s, [])).store).2 = ([] : List String) := by
  constructor <;> simp [Verify]

/-- C10: every in-memory store operation returns a nil error on every key
and state, so with the in-memory backend `Verify` never reports a storage
error: the two 500 branches and the completion-failure report are
unreachable. -/
theorem memory_storage_never_errors (s : MemStore) (k : String) :
    (memAdd s k).1 = none ∧ (memGet s k).1.2 = none ∧ (memComplete s k).1 = none ∧
    errorReported (Verify memoryStorage k s).outcome = false := by
  refine ⟨rfl, rfl, rfl, ?_⟩
  by_cases hk : k = ""
  · subst hk; simp [Verify, errorReported]
  · rcases hl : lookupKey s k with _ | ⟨⟨b⟩⟩
    · rw [verify_mem_absent k s hk hl]; rfl
    · cases b with
      | true => rw [verify_mem_inProcess k s hk hl]; rfl
      | false => rw [verify_mem_completed k s hk hl]; rfl

/-- C6: whenever the store query finds the key `InProcess`, `Verify` answers
409 Conflict and the wrapped handler does not run — for any backend; in
particular, against the no-op-`Complete` store of the test suite, a second
request with the same key yields 409. -/
theorem inprocess_conflict :
    (∀ (σ : Type) (st : Storage σ) (s : σ) (k : String), ¬k = "" →
      (st.Get s k).1 = (some inProcessStatus, none) →
      (Verify st k s).outcome = .conflict "request already in progress" ∧
      (Verify st k s).handlerRan = false) ∧
    (Verify noopCompleteStorage "deadbeef"
        (Verify noopCompleteStorage "deadbeef" []).store).outcome
      = .conflict "request already in progress" := by
  constructor
  · intro σ st s k hk hg
    rcases hget : st.Get s k with ⟨⟨status, gerr⟩, s1⟩
    rw [hget] at hg
    have hst : status = some inProcessStatus := congrArg Prod.fst hg
    have hge : gerr = (none : Option String) := congrArg Prod.snd hg
    subst hst; subst hge
    constructor <;>
      simp [Verify, hk, hget, verifyAfterGet, inProcessStatus]
  · decide

/-- C6 witness at a concrete store and key. -/
theorem inprocess_conflict_w :
    (Verify memoryStorage "k" [("k", inProcessStatus)]).outcome
      = .conflict "request already in progress" :=
  (inprocess_conflict.1 MemStore memoryStorage [("k", inProcessStatus)] "k"
    (by decide) (by decide)).1

theorem runN_mem_completed (k : String) (hk : ¬k = "") :
    ∀ (n : Nat) (s : MemStore), lookupKey s k = some completedStatus →
      runN memoryStorage k n s = (s, 0, n) := by
  intro n
  induction n with
  | zero => intro s _; rfl
  | succ m ih =>
      intro s h
      simp only [runN, verify_mem_completed k s hk h]
      simp [ih s h, Nat.add_comm]

/-- C5: issuing the same request with the same nonempty key `n ≥ 1` times in
strict sequence against the in-memory store runs the wrapped handler exactly
once and the restorer exactly `n - 1` times; moreover, from any state, after
`Complete` succeeds for a key, a request with that key goes to the restorer
and never to the handler. -/
theorem sequential_idempotence (k : String) (n : Nat) (hk : ¬k = "") (hn : 1 ≤ n) :
    ((runN memoryStorage k n []).2.1 = 1 ∧ (runN memoryStorage k n []).2.2 = n - 1) ∧
    (∀ s : MemStore,
      (Verify memoryStorage k (memComplete s k).2).restorerRan = true ∧
      (Verify memoryStorage k (memComplete s k).2).handlerRan = false) := by
  obtain ⟨m, rfl⟩ : ∃ m, n = m + 1 := ⟨n - 1, (Nat.succ_pred_eq_of_pos hn).symm⟩
  have h1 : Verify memoryStorage k ([] : MemStore) =
      ⟨.handled none, insertKey (insertKey [] k inProcessStatus) k completedStatus,
        true, false⟩ :=
    verify_mem_absent k [] hk rfl
  have h2 : lookupKey (insertKey (insertKey [] k inProcessStatus) k completedStatus) k
      = some completedStatus := lookupKey_insertKey_self _ _ _
  constructor
  · constructor
    · simp only [runN, h1]
      simp [runN_mem_completed k hk m _ h2]
    · simp only [runN, h1]
      simp [runN_mem_completed k hk m _ h2]
  · intro s
    have h3 := verify_mem_completed k (insertKey s k completedStatus) hk
      (lookupKey_insertKey_self s k completedStatus)
    constructor
    · show (Verify memoryStorage k (insertKey s k completedStatus)).restorerRan = true
      rw [h3]
    · show (Verify memoryStorage k (insertKey s k completedStatus)).handlerRan = false
      rw [h3]

/-- C5 witness: three sequential requests with key "deadbeef" run the
handler once and the restorer twice. -/
theorem sequential_idempotence_w :
    (runN memoryStorage "deadbeef" 3 []).2.1 = 1 ∧
    (runN memoryStorage "deadbeef" 3 []).2.2 = 2 := by
  have h := sequential_idempotence "deadbeef" 3 (by decide) (by decide)
  exact ⟨h.1.1, h.1.2⟩

/-- C9: for the Redis store, `Complete` on a present key succeeds, overwrites
the stored token to the `"done"` marker, leaves the key's remaining TTL
exactly as it was (the `KEEPTTL` write), and a subsequent `Get` reports the
key as completed (not in process). -/
theorem rsComplete_preserves_ttl (cfg : RedisCfg) (db : RedisDB) (key : String)
    (ent : RedisEntry) (h : lookupKey db (cfg.keyPfx ++ key) = some ent) :
    (rsComplete cfg healthyConn db key).1 = none ∧
    lookupKey (rsComplete cfg healthyConn db key).2 (cfg.keyPfx ++ key)
      = some ⟨"done", ent.ttl⟩ ∧
    (rsGet cfg healthyConn (rsComplete cfg healthyConn db key).2 key).1
      = (some completedStatus, none) := by
  have h2 : (rsComplete cfg healthyConn db key).2
      = insertKey db (cfg.keyPfx ++ key) ⟨"done", ent.ttl⟩ := by
    simp [rsComplete, healthyConn, redisSetKeepTTL, h]
  refine ⟨rfl, ?_, ?_⟩
  · rw [h2]; exact lookupKey_insertKey_self _ _ _
  · rw [h2]
    have hb : ("done" == "in-process") = false := by decide
    simp [rsGet, healthyConn, redisGetCmd, lookupKey_insertKey_self, hb,
      completedStatus]

/-- C9 witness: completing the key "k" stored as in-process with 60 units of
TTL left keeps the TTL at 60 and flips the token to "done". -/
theorem rsComplete_preserves_ttl_w :
    (rsComplete ⟨60, "idemp:"⟩ healthyConn
        [("idemp:k", ⟨"in-process", some 60⟩)] "k").1 = none ∧
    lookupKey (rsComplete ⟨60, "idemp:"⟩ healthyConn
        [("idemp:k", ⟨"in-process", some 60⟩)] "k").2 ("idemp:" ++ "k")
      = some ⟨"done", some 60⟩ ∧
    (rsGet ⟨60, "idemp:"⟩ healthyConn (rsComplete ⟨60, "idemp:"⟩ healthyConn
        [("idemp:k", ⟨"in-process", some 60⟩)] "k").2 "k").1
      = (some completedStatus, none) :=
  rsComplete_preserves_ttl ⟨60, "idemp:"⟩ [("idemp:k", ⟨"in-process", some 60⟩)]
    "k" ⟨"in-process", some 60⟩ (by decide)

/-- C1 counterexample: on a key already stored as completed, the in-memory
`Add` still returns a nil error (the claim succeeds exactly as for a fresh
key) and overwrites the existing status with `InProcess` — the claimed
absence check does not exist in `memoryStorage.Add`. -/
theorem memAdd_succeeds_on_completed_key :
    (memAdd [("k", completedStatus)] "k").1 = none ∧
    lookupKey (memAdd [("k", completedStatus)] "k").2 "k" = some inProcessStatus := by
  exact ⟨rfl, by decide⟩

/-- C1 (amended): the in-memory `Add` is one critical section (it holds the
exclusive mutex for its whole body) but performs no absence check: for every
store state and key it returns a nil error and unconditionally maps the key
to `InProcess`, overwriting any existing status. -/
theorem memAdd_unconditional_insert (s : MemStore) (k : String) :
    memAdd s k = (none, insertKey s k inProcessStatus) ∧
    lookupKey (memAdd s k).2 k = some inProcessStatus :=
  ⟨rfl, lookupKey_insertKey_self s k inProcessStatus⟩

/-- C2 counterexample: the Redis `Add` reports a pre-existing key and a
client/connectivity failure through the same single result shape — a
non-nil `error` — and the coordinator observes the same outcome in both
cases: the loser of a claim race (thread `a` below, which queried before the
winner's `SETNX` landed) ends in a 500, exactly as a request whose `SETNX`
could not reach Redis does. -/
theorem redis_race_and_failure_same_shape :
    ((rsAdd ⟨60, "idemp:"⟩ healthyConn [("idemp:k", ⟨"in-process", some 60⟩)] "k").1).isSome
      = true ∧
    ((rsAdd ⟨60, "idemp:"⟩ ⟨some "connection refused", none, none⟩ [] "k").1).isSome
      = true ∧
    TPC.doneInternal (runSched (redisStorage ⟨60, "idemp:"⟩ healthyConn) "k" []
        [true, false, false, true]).a = true ∧
    ((Verify (redisStorage ⟨60, "idemp:"⟩ ⟨some "connection refused", none, none⟩)
        "k" []).outcome).isInternal = true := by
  refine ⟨by decide, rfl, by decide, rfl⟩

/-- C2 (amended): a claim on a pre-existing key and a backend failure are
both reported through `Add`'s one error return value — a non-nil error in
either case, differing only in message text — so the caller receives no
structurally distinct outcome for a lost race. -/
theorem rsAdd_single_error_shape (cfg : RedisCfg) (db dbf : RedisDB) (key e : String)
    (ent : RedisEntry) (h : lookupKey db (cfg.keyPfx ++ key) = some ent) :
    ((rsAdd cfg healthyConn db key).1).isSome = true ∧
    ((rsAdd cfg ⟨some e, none, none⟩ dbf key).1).isSome = true := by
  constructor
  · simp [rsAdd, healthyConn, redisSetNX, h]
  · rfl

/-- C2 witness at a concrete database, key and failure message. -/
theorem rsAdd_single_error_shape_w :
    ((rsAdd ⟨60, "idemp:"⟩ healthyConn [("idemp:k", ⟨"done", some 9⟩)] "k").1).isSome
      = true ∧
    ((rsAdd ⟨60, "idemp:"⟩ ⟨some "dial timeout", none, none⟩ [] "k").1).isSome = true :=
  rsAdd_single_error_shape ⟨60, "idemp:"⟩ [("idemp:k", ⟨"done", some 9⟩)] []
    "k" "dial timeout" ⟨"done", some 9⟩ (by decide)

/-- C3 counterexample: two concurrent requests with key "k" against the
Redis store, where the schedule is: `a` queries (absent), `b` queries
(absent), `b` claims (SETNX succeeds), `a` claims (SETNX reports the key
exists).  Thread `a` — which lost the race after its initial query — ends
with a 500 Internal Server Error built from the claim error, not with a 409
or a restorer call. -/
theorem lost_race_gets_500 :
    TPC.doneInternal (runSched (redisStorage ⟨60, "idemp:"⟩ healthyConn) "k" []
        [true, false, false, true]).a = true ∧
    (runSched (redisStorage ⟨60, "idemp:"⟩ healthyConn) "k" []
        [true, false, false, true]).a
      = TPC.done (.internalError (addFailMsg "the key \"k\" already exists in redis")) := by
  constructor <;> decide

/-- C3 (amended): whenever the initial query reports the key absent and the
subsequent claim returns any error — a lost race included, since the store
reports a lost race only as an error — `Verify` responds 500 Internal Server
Error and the wrapped handler does not run; no Add error is ever routed to
the 409/restorer treatment. -/
theorem verify_add_error_internal (σ : Type) (st : Storage σ) (s : σ) (k e : String)
    (hk : ¬k = "")
    (hget : (st.Get s k).1 = (none, none))
    (hadd : (st.Add (st.Get s k).2 k).1 = some e) :
    (Verify st k s).outcome = .internalError (addFailMsg e) ∧
    (Verify st k s).handlerRan = false := by
  rcases hg : st.Get s k with ⟨⟨status, gerr⟩, s1⟩
  rw [hg] at hget hadd
  have hst : status = none := congrArg Prod.fst hget
  have hge : gerr = (none : Option String) := congrArg Prod.snd hget
  subst hst; subst hge
  rcases ha : st.Add s1 k with ⟨aerr, s2⟩
  rw [ha] at hadd
  simp only at hadd
  subst hadd
  constructor <;> simp [Verify, hk, hg, verifyAfterGet, ha, verifyAfterAdd]

/-- C3 witness: a request whose query finds nothing and whose claim fails
(here a SETNX connectivity error) is answered with a 500. -/
theorem verify_add_error_internal_w :
    (Verify (redisStorage ⟨60, "idemp:"⟩ ⟨some "boom", none, none⟩) "k" []).outcome
      = .internalError (addFailMsg "failed to set the key \"k\" in redis: boom") ∧
    (Verify (redisStorage ⟨60, "idemp:"⟩ ⟨some "boom", none, none⟩) "k" []).handlerRan
      = false :=
  verify_add_error_internal RedisDB (redisStorage ⟨60, "idemp:"⟩ ⟨some "boom", none, none⟩)
    [] "k" "failed to set the key \"k\" in redis: boom" (by decide) (by decide) (by decide)

/-- C4 counterexample: with the in-memory store, a second claim on a key
whose first claim already landed also returns a nil error — both claimants
"win" — and under the interleaving `a` queries, `b` queries, then each adds
and runs, the wrapped handler executes twice for the single key "k". -/
theorem two_mem_claims_both_succeed :
    (memAdd [] "k").1 = none ∧
    (memAdd (memAdd [] "k").2 "k").1 = none ∧
    (runSched memoryStorage "k" [] [true, false, true, true, false, false]).handlerRuns
      = 2 := by
  refine ⟨rfl, rfl, by decide⟩

theorem rsAdd_present (cfg : RedisCfg) (db : RedisDB) (key : String) (ent : RedisEntry)
    (h : lookupKey db (cfg.keyPfx ++ key) = some ent) :
    rsAdd cfg healthyConn db key
      = (some ("the key \"" ++ key ++ "\" already exists in redis"), db) := by
  simp [rsAdd, healthyConn, redisSetNX, h]

/-- Serialize `n` claim attempts against the Redis store, collecting each
attempt's error result. -/
def redisAddN (cfg : RedisCfg) (key : String) : Nat → RedisDB → List (Option String) × RedisDB
  | 0, db => ([], db)
  | Nat.succ n, db =>
      let r := rsAdd cfg healthyConn db key
      let rest := redisAddN cfg key n r.2
      (r.1 :: rest.1, rest.2)

theorem redisAddN_present (cfg : RedisCfg) (key : String) (ent : RedisEntry) :
    ∀ (n : Nat) (db : RedisDB), lookupKey db (cfg.keyPfx ++ key) = some ent →
      (redisAddN cfg key n db).1.countP (fun e => e.isNone) = 0 ∧
      (redisAddN cfg key n db).2 = db := by
  intro n
  induction n with
  | zero => intro db _; exact ⟨rfl, rfl⟩
  | succ m ih =>
      intro db h
      simp only [redisAddN, rsAdd_present cfg db key ent h]
      obtain ⟨h1, h2⟩ := ih db h
      simp [h1, h2, List.countP_cons]

/-- C4 (amended): for the Redis store, however the `n ≥ 1` simultaneous
claims on a never-seen key are serialized by Redis, exactly one of them
succeeds (nil error) — every other claimant receives the already-exists
error; the in-memory store does not have this property, since its `Add`
succeeds for every claimant. -/
theorem redis_exactly_one_claim (cfg : RedisCfg) (db : RedisDB) (key : String) (n : Nat)
    (habs : lookupKey db (cfg.keyPfx ++ key) = none) (hn : 1 ≤ n) :
    (redisAddN cfg key n db).1.countP (fun e => e.isNone) = 1 := by
  obtain ⟨m, rfl⟩ : ∃ m, n = m + 1 := ⟨n - 1, (Nat.succ_pred_eq_of_pos hn).symm⟩
  have hadd : rsAdd cfg healthyConn db key
      = (none, insertKey db (cfg.keyPfx ++ key) ⟨"in-process", some cfg.expiry⟩) := by
    simp [rsAdd, healthyConn, redisSetNX, habs]
  have hpres := redisAddN_present cfg key ⟨"in-process", some cfg.expiry⟩ m
    (insertKey db (cfg.keyPfx ++ key) ⟨"in-process", some cfg.expiry⟩)
    (lookupKey_insertKey_self db (cfg.keyPfx ++ key) _)
  simp only [redisAddN, hadd]
  simp [hpres.1, List.countP_cons]

/-- C4 witness: of three serialized Redis claims on the fresh key "k",
exactly one reports success. -/
theorem redis_exactly_one_claim_w :
    (redisAddN ⟨60, "idemp:"⟩ "k" 3 []).1.countP (fun e => e.isNone) = 1 :=
  redis_exactly_one_claim ⟨60, "idemp:"⟩ [] "k" 3 (by decide) (by decide)

/-- C8 counterexample: the per-step status of key "k" under the interleaving
`a` queries (absent), `b` queries (absent), `b` claims, `b` runs, `b`
completes, `a` claims.  After step five the key is `Completed`
(`some completedStatus`); the sixth step moves it back to `InProcess` — a
reverse transition driven entirely by coordinator-issued operations. -/
theorem completed_reverts_to_inprocess :
    memTraceFrom "k" [] [true, false, false, false, false, true]
      = [none, none, some inProcessStatus, some inProcessStatus,
          some completedStatus, some inProcessStatus] := by
  decide

/-- C8 (amended): as long as requests are not interleaved — each request's
store operations run back to back — a key's status only moves forward along
absent → InProcess → Completed (its rank never decreases across a request),
and a Completed key is left untouched; interleaved requests can revert
Completed to InProcess because the in-memory `Add` overwrites
unconditionally. -/
theorem sequential_status_monotone (s : MemStore) (k : String) :
    statusRank (lookupKey s k)
      ≤ statusRank (lookupKey (Verify memoryStorage k s).store k) ∧
    (lookupKey s k = some completedStatus → (Verify memoryStorage k s).store = s) := by
  by_cases hk : k = ""
  · subst hk
    exact ⟨le_refl _, fun _ => rfl⟩
  · rcases hl : lookupKey s k with _ | ⟨⟨b⟩⟩
    · refine ⟨?_, ?_⟩
      · simp [verify_mem_absent k s hk hl, hl, lookupKey_insertKey_self,
          statusRank, completedStatus]
      · intro hc
        cases hc
    · cases b with
      | false =>
          refine ⟨?_, ?_⟩
          · simp [verify_mem_completed k s hk hl, hl]
          · intro _
            simp [verify_mem_completed k s hk hl]
      | true =>
          refine ⟨?_, ?_⟩
          · simp [verify_mem_inProcess k s hk hl, hl]
          · intro hc
            exact absurd hc (by decide)

/-- C8 witness: a completed key stays completed across a further request. -/
theorem sequential_status_monotone_w :
    statusRank (lookupKey [("k", completedStatus)] "k")
      ≤ statusRank (lookupKey
          (Verify memoryStorage "k" [("k", completedStatus)]).store "k") ∧
    (Verify memoryStorage "k" [("k", completedStatus)]).store
      = [("k", completedStatus)] := by
  have h := sequential_status_monotone [("k", completedStatus)] "k"
  exact ⟨h.1, h.2 (by decide)⟩
